import Mathlib

/-!
Verification of the talking-timer custom element (src/talking-timer.js).

The JavaScript source is shallowly embedded below.  JavaScript numbers
are modelled as rationals wherever the source can produce fractional
values (durations, offsets and loop counters inside the schedule
generator and the tick dispatcher), and as naturals where the source
only ever holds non-negative integers (the time codec and the duration
validator).  Configuration is fixed at its documented defaults, which
is what the constructor produces when no talkingTimerExternalDefaults
global exists: suffixes first " gone.", last " to go.", half
"Half way.", the pre table, and priority "fraction" (parseAttributes
resolves the priority attribute to "fraction" on every input).  The
diagnostic raw field carried on parsed intervals and schedule items is
not modelled: no offset or message depends on it.
-/

/-- Time components as held by the timer (the currentValue and
initialValue objects): hours, minutes, seconds and tenths of a second. -/
structure TimeObj where
  hours : Nat
  minutes : Nat
  seconds : Nat
  tenths : Nat
deriving Repr, DecidableEq

/-- Source getWholePart: the whole number of units and the remaining
milliseconds (Math.floor of the division, then input minus whole times
multiplier). -/
def getWholePart (input multiplier : Nat) : Nat × Nat :=
  let wholeVal := input / multiplier
  (wholeVal, input - wholeVal * multiplier)

/-- Source millisecondsToTimeObj: split milliseconds into hours, minutes,
seconds and tenths with the fixed multiplier table (hours 3600000,
minutes 60000, seconds 1000, tenths 100), threading the remainder. -/
def millisecondsToTimeObj (milliseconds : Nat) : TimeObj :=
  let h := getWholePart milliseconds 3600000
  let m := getWholePart h.2 60000
  let s := getWholePart m.2 1000
  let t := getWholePart s.2 100
  ⟨h.1, m.1, s.1, t.1⟩

/-- Source timeObjToMilliseconds: the sum of field times multiplier over
the four fields (tenths, seconds, minutes, hours). -/
def timeObjToMilliseconds (timeObj : TimeObj) : Nat :=
  timeObj.tenths * 100 + timeObj.seconds * 1000 + timeObj.minutes * 60000 +
    timeObj.hours * 3600000

/-- Number.parseInt on an already validated digit substring. -/
def toNatDigits (cs : List Char) : Nat :=
  cs.foldl (fun a c => a * 10 + (c.toNat - 48)) 0

/-- The duration regex piece [0-5]?[0-9] (minutes, seconds, and the bare
one or two digit seconds alternative): one digit, or two digits whose
first is 0-5. -/
def matchMS (cs : List Char) : Bool :=
  match cs with
  | [c] => c.isDigit
  | [c1, c2] => (decide ('0' ≤ c1) && decide (c1 ≤ '5')) && c2.isDigit
  | _ => false

/-- The duration regex hours piece [0-1]?[0-9]|2[0-4]. -/
def matchHours (cs : List Char) : Bool :=
  match cs with
  | [c] => c.isDigit
  | [c1, c2] =>
      ((decide ('0' ≤ c1) && decide (c1 ≤ '1')) && c2.isDigit) ||
        ((c1 == '2') && (decide ('0' ≤ c2) && decide (c2 ≤ '4')))
  | _ => false

/-- The duration regex bare-count piece [6-9][0-9]|[1-9][0-9]{2,5}: a two
digit count 60-99, or three to six digits with a nonzero leading digit. -/
def matchBareSeconds (cs : List Char) : Bool :=
  match cs with
  | [c1, c2] => (decide ('6' ≤ c1) && decide (c1 ≤ '9')) && c2.isDigit
  | c :: rest =>
      (decide ('1' ≤ c) && decide (c ≤ '9')) && rest.all Char.isDigit &&
        decide (2 ≤ rest.length) && decide (rest.length ≤ 5)
  | [] => false

/-- Split a character list at colons, keeping empty segments.  The
validateTimeDuration regex anchors the whole input, its three capture
groups are colon separated, and no capture group may contain a colon, so
a whole-string match corresponds exactly to a segment-wise match. -/
def splitColon : List Char → List (List Char)
  | [] => [[]]
  | c :: rest =>
      if c = ':' then [] :: splitColon rest
      else
        match splitColon rest with
        | p :: ps => (c :: p) :: ps
        | [] => [[c]]

/-- Source validateTimeDuration, reduced to the value it assigns to
initialMilliseconds: some duration in milliseconds on a regex match,
none when the method logs a configuration error and returns false.  The
group 1-3 alternative (SS, MM:SS, HH:MM:SS) converts through
timeObjToMilliseconds with no clamp; the group 4 alternative (a bare
second count of 60 or more) clamps at 86400 seconds before scaling. -/
def validateTimeDuration (hoursMinutesSeconds : String) : Option Nat :=
  match splitColon hoursMinutesSeconds.data with
  | [s] =>
      if matchMS s then
        some (timeObjToMilliseconds ⟨0, 0, toNatDigits s, 0⟩)
      else if matchBareSeconds s then
        let seconds := toNatDigits s
        let clamped := if seconds > 86400 then 86400 else seconds
        some (clamped * 1000)
      else none
  | [m, s] =>
      if matchMS m && matchMS s then
        some (timeObjToMilliseconds ⟨0, toNatDigits m, toNatDigits s, 0⟩)
      else none
  | [h, m, s] =>
      if matchHours h && matchMS m && matchMS s then
        some (timeObjToMilliseconds ⟨toNatDigits h, toNatDigits m, toNatDigits s, 0⟩)
      else none
  | _ => none

/-- One schedule entry: the remaining-time offset in milliseconds at
which the message should be spoken, and the message itself. -/
structure SayItem where
  offset : ℚ
  message : String
deriving Repr, DecidableEq

/-- Default first-relative suffix (suffixes.first). -/
def suffixFirst : String := " gone."

/-- Default last-relative suffix (suffixes.last). -/
def suffixLast : String := " to go."

/-- Default half-way phrase (suffixes.half). -/
def suffixHalf : String := "Half way."

/-- Source posMinus: the absolute difference of two numbers. -/
def posMinus (a b : ℚ) : ℚ := if a > b then a - b else b - a

/-- Source tooClose: current lies strictly within 5000 ms of previous. -/
def tooClose (current previous : ℚ) : Bool :=
  decide (current > previous - 5000) && decide (current < previous + 5000)

/-- Source tooCloseAny: tooClose against any previously seen offset. -/
def tooCloseAny (offset : ℚ) (previous : List ℚ) : Bool :=
  previous.any fun p => tooClose offset p

/-- JavaScript Math.round on the non-negative rationals that reach it:
the floor of x + 1/2. -/
def jsRound (x : ℚ) : ℤ := ⌊x + 1 / 2⌋

/-- Source makeTimeMessage: the spoken rendering of an offset.  Below
20000 ms the value renders as a bare rounded second count, gaining
" seconds" plus the suffix only when forceSufix is set, or " seconds"
alone above 10000 ms.  At or above 20000 ms the hours, minutes and
seconds are rendered largest first; the minutes branch overwrites
instead of appending the running output, exactly like the plain
assignment in the source. -/
def makeTimeMessage (offset : ℚ) (suffix : String) (forceSufix : Bool) : String :=
  if offset < 20000 then
    let tmpSuffix :=
      if forceSufix then " seconds" ++ suffix
      else if offset > 10000 then " seconds" else ""
    toString (jsRound (offset / 1000)) ++ tmpSuffix
  else
    let hours : ℤ := ⌊offset / 3600000⌋
    let output1 :=
      if offset ≥ 3600000 then
        toString hours ++ " hour" ++ (if hours > 1 then "s" else "")
      else ""
    let comma1 := if offset ≥ 3600000 then ", " else ""
    let working1 := if offset ≥ 3600000 then offset - hours * 3600000 else offset
    let minutes : ℤ := ⌊working1 / 60000⌋
    let output2 :=
      if working1 ≥ 60000 then
        comma1 ++ toString minutes ++ " minute" ++ (if minutes > 1 then "s" else "")
      else output1
    let comma2 := if working1 ≥ 60000 then ", " else comma1
    let working2 := if working1 ≥ 60000 then working1 - minutes * 60000 else working1
    let seconds : ℤ := jsRound (working2 / 1000)
    let output3 :=
      if seconds > 0 then
        output2 ++ comma2 ++ toString seconds ++ " second" ++ (if seconds > 1 then "s" else "")
      else output2
    output3 ++ suffix

/-- Source makeFractionMessage: the ordinal fraction phrase.  The
denominator is reduced when the numerator divides it evenly, denominator
2 short-circuits to the configured half phrase.  Both arguments are the
positive integers the fraction generator passes; on those inputs the Nat
divisions agree with the JavaScript float divisions because every
reduced value is an integer. -/
def makeFractionMessage (numerator denominator : Nat) : String :=
  let newDenominator :=
    if denominator % numerator = 0 then denominator / numerator else denominator
  if newDenominator = 2 then suffixHalf
  else
    let fraction :=
      match newDenominator with
      | 3 => "third"
      | 4 => "quarter"
      | 5 => "fifth"
      | 6 => "sixth"
      | 7 => "seventh"
      | 8 => "eighth"
      | 9 => "ninth"
      | 10 => "tenth"
      | _ => ""
    let newNumerator := numerator / (denominator / newDenominator)
    let plural := if newNumerator > 1 then "s" else ""
    toString newNumerator ++ " " ++ fraction ++ plural

/-- The pre table at its defaults: remaining-time threshold paired with
the estimated speech delay. -/
def pre : List (ℚ × ℚ) := [(10000, 200), (19999, 600), (86400, 1200)]

/-- Source getSpeakPreOffset: the delay of the first band whose
threshold is at or above the remaining time, falling back to the last
band's delay when the loop finds none. -/
def getSpeakPreOffset (timeRemaining : ℚ) : ℚ :=
  match pre.find? (fun band => decide (timeRemaining ≤ band.1)) with
  | some band => band.2
  | none =>
      match pre.getLast? with
      | some band => band.2
      | none => 0

/-- Capture groups of one match of the interval regex
(all|every)? sep ([0-9]+)? sep ((la|fir)st)? sep
( ([1-9][0-9]*) sep ([smh]?) | ([1-9])? sep 1/([2-9]|10) ),
where sep is the optional [_-].  Groups that did not participate are
none; g1 and g3 are the empty string when their optional group matched
nothing, exactly as the source reads them. -/
structure TokenGroups where
  g1 : String
  g2 : Option Nat
  g3 : String
  g4 : Option Nat
  g5 : Option String
  g6 : Option Nat
  g7 : Option Nat
deriving Repr, DecidableEq

/-- The maximal leading digit run of a character list. -/
def digitRun (cs : List Char) : List Char := cs.takeWhile Char.isDigit

/-- Candidates for (all|every)?, in the order a backtracking regex engine
tries them: the all branch, the every branch, then the empty match. -/
def candKeyword (cs : List Char) : List (String × List Char) :=
  (if cs.take 3 = ['a', 'l', 'l'] then [("all", cs.drop 3)] else []) ++
    (if cs.take 5 = ['e', 'v', 'e', 'r', 'y'] then [("every", cs.drop 5)] else []) ++
    [("", cs)]

/-- Candidates for the optional separator [_-]?: consume it greedily,
then leave it. -/
def candSep (cs : List Char) : List (List Char) :=
  match cs with
  | '_' :: rest => [rest, '_' :: rest]
  | '-' :: rest => [rest, '-' :: rest]
  | _ => [cs]

/-- Candidates for ([0-9]+)?: every nonempty prefix of the leading digit
run, longest first, then the non-participating case. -/
def candDigitsOpt (cs : List Char) : List (Option Nat × List Char) :=
  let run := digitRun cs
  ((List.range run.length).map fun i =>
    let k := run.length - i
    (some (toNatDigits (run.take k)), cs.drop k)) ++
    [(none, cs)]

/-- Candidates for ([1-9][0-9]*): every nonempty prefix of the leading
digit run, longest first, provided the first digit is nonzero. -/
def candDigits1 (cs : List Char) : List (Nat × List Char) :=
  match cs with
  | c :: _ =>
      if decide ('1' ≤ c) && decide (c ≤ '9') then
        let run := digitRun cs
        (List.range run.length).map fun i =>
          let k := run.length - i
          (toNatDigits (run.take k), cs.drop k)
      else []
  | [] => []

/-- Candidates for ((la|fir)st)?: last, first, then the empty match. -/
def candFirstLast (cs : List Char) : List (String × List Char) :=
  (if cs.take 4 = ['l', 'a', 's', 't'] then [("last", cs.drop 4)] else []) ++
    (if cs.take 5 = ['f', 'i', 'r', 's', 't'] then [("first", cs.drop 5)] else []) ++
    [("", cs)]

/-- Candidates for ([smh]?): the unit letter, then the empty match; the
group always participates, as a possibly empty string. -/
def candUnit (cs : List Char) : List (String × List Char) :=
  match cs with
  | 's' :: rest => [("s", rest), ("", 's' :: rest)]
  | 'm' :: rest => [("m", rest), ("", 'm' :: rest)]
  | 'h' :: rest => [("h", rest), ("", 'h' :: rest)]
  | _ => [("", cs)]

/-- Candidates for ([1-9])?: one nonzero digit, then the
non-participating case. -/
def candNum1 (cs : List Char) : List (Option Nat × List Char) :=
  match cs with
  | c :: rest =>
      if decide ('1' ≤ c) && decide (c ≤ '9') then
        [(some (c.toNat - 48), rest), (none, c :: rest)]
      else [(none, c :: rest)]
  | [] => [(none, [])]

/-- Candidates for ([2-9]|10): a single digit 2-9 first, then 10. -/
def candDenom (cs : List Char) : List (Nat × List Char) :=
  (match cs with
   | c :: rest =>
       if decide ('2' ≤ c) && decide (c ≤ '9') then [(c.toNat - 48, rest)] else []
   | [] => []) ++
    (if cs.take 2 = ['1', '0'] then [(10, cs.drop 2)] else [])

/-- The time alternative ([1-9][0-9]*) sep ([smh]?), which must consume
the rest of the token (the trailing lookahead of the regex). -/
def matchTailTime (cs : List Char) : Option (Nat × String) :=
  (candDigits1 cs).findSome? fun qr =>
    (candSep qr.2).findSome? fun r2 =>
      (candUnit r2).findSome? fun ur =>
        if ur.2 = [] then some (qr.1, ur.1) else none

/-- The fraction alternative ([1-9])? sep 1/([2-9]|10), which must
consume the rest of the token. -/
def matchTailFraction (cs : List Char) : Option (Option Nat × Nat) :=
  (candNum1 cs).findSome? fun nr =>
    (candSep nr.2).findSome? fun r2 =>
      match r2 with
      | '1' :: '/' :: r3 =>
          (candDenom r3).findSome? fun dr =>
            if dr.2 = [] then some (nr.1, dr.1) else none
      | _ => none

/-- The interval regex applied to one whitespace separated token (already
lowercased: the regex carries the i flag and the source lowercases every
group value it keeps).  The nested candidate search reproduces the
backtracking order of the regex engine: each optional prefix group is
tried greedily, and the time alternative is tried before the fraction
alternative for every assignment of the prefix groups. -/
def matchToken (cs : List Char) : Option TokenGroups :=
  (candKeyword cs).findSome? fun kr =>
    (candSep kr.2).findSome? fun r2 =>
      (candDigitsOpt r2).findSome? fun mr =>
        (candSep mr.2).findSome? fun r4 =>
          (candFirstLast r4).findSome? fun fr =>
            (candSep fr.2).findSome? fun r6 =>
              match matchTailTime r6 with
              | some qu => some ⟨kr.1, mr.1, fr.1, some qu.1, some qu.2, none, none⟩
              | none =>
                  match matchTailFraction r6 with
                  | some nd => some ⟨kr.1, mr.1, fr.1, none, none, nd.1, some nd.2⟩
                  | none => none

/-- One parsed interval directive: the interval object parseRawIntervals
assembles from the capture groups.  The exclude field (threaded through
unused by the announcement builders) and the diagnostic raw field are
dropped. -/
structure RawInterval where
  all : Bool
  every : Bool
  multiplier : Nat
  relative : String
  isFraction : Bool
  denominator : Nat
  time : Nat
  unit : String
deriving Repr, DecidableEq

/-- The interval object as parseRawIntervals builds it: all when the
keyword is all or no relative keyword appears, every only together with
a relative keyword, multiplier defaulting to 1, then the every and all
overrides forcing multiplier to 0, and for fractions the multiplier
clamp at denominator - 1.  A fraction match sets denominator from group
7; a time match sets time from group 4 and unit from group 5 with
default "s". -/
def buildInterval (g : TokenGroups) : RawInterval :=
  let allEvery := g.g1
  let firstLast := g.g3
  let all0 : Bool := allEvery == "all" || firstLast == ""
  let every0 : Bool := allEvery == "every" && firstLast != ""
  let mult0 := match g.g2 with | some n => n | none => 1
  let all1 := if every0 then false else all0
  let mult1 := if every0 then 0 else if all0 then 0 else mult0
  match g.g7 with
  | some d =>
      let mult2 := if mult1 > d - 1 then d - 1 else mult1
      ⟨all1, every0, mult2, firstLast, true, d, 0, ""⟩
  | none =>
      ⟨all1, every0, mult1, firstLast, false, 0,
        (match g.g4 with | some q => q | none => 0),
        (match g.g5 with | some u => u | none => "s")⟩

/-- The half-way collapse inside getFractionOffsetAndMessage: an offset
strictly within 5000 ms of the midpoint becomes the canonical half-way
announcement built from suffixes.half. -/
def collapseHalf (half : ℚ) (item : SayItem) : SayItem :=
  if tooClose item.offset half then ⟨half, suffixHalf⟩ else item

/-- Source getFractionOffsetAndMessage: denominator 2 short-circuits to
the single hard-coded "Half way" announcement at the midpoint; otherwise
count announcements are laid out from the chosen edge (relative first or
last), or floor(count / 2) symmetric pairs when no relative keyword was
given, and every produced offset is then passed through the half-way
collapse. -/
def getFractionOffsetAndMessage (intervalObj : RawInterval) (milliseconds : ℚ) : List SayItem :=
  let half := milliseconds / 2
  let interval := milliseconds / (intervalObj.denominator : ℚ)
  if intervalObj.denominator = 2 then [⟨half, "Half way"⟩]
  else
    let count :=
      if intervalObj.multiplier = 0 ∨ intervalObj.multiplier ≥ intervalObj.denominator
      then intervalObj.denominator else intervalObj.multiplier
    let offsets :=
      if intervalObj.relative ≠ "" then
        let suffix := if intervalObj.relative = "first" then suffixFirst else suffixLast
        let minus := if intervalObj.relative = "first" then milliseconds else 0
        (List.range count).map fun a =>
          ⟨posMinus minus (interval * (a + 1 : ℚ)),
            makeFractionMessage (a + 1) intervalObj.denominator ++ suffix⟩
      else
        (List.range (count / 2)).flatMap fun a =>
          let message := makeFractionMessage (a + 1) intervalObj.denominator
          [⟨milliseconds - interval * (a + 1 : ℚ), message ++ suffixLast⟩,
            ⟨interval * (a + 1 : ℚ), message ++ suffixFirst⟩]
    offsets.map (collapseHalf half)

/-- Source getTimeOffsetAndMessage.  The loop bounds are the exact
iteration counts of the source loops: the symmetric walk pushes pairs
for the multiples of the interval up to milliseconds / 2; the every or
fixed-count walk lets a run from count down in steps of 1 while a > 0,
where count = milliseconds / interval under every (possibly fractional)
and count = time otherwise; the multiplier > 1 walk pushes multiples of
the interval while they stay at or below time. -/
def getTimeOffsetAndMessage (intervalObj : RawInterval) (milliseconds : ℚ) : List SayItem :=
  let suffix := if intervalObj.relative = "first" then suffixFirst else suffixLast
  if (intervalObj.all || intervalObj.every) || decide (intervalObj.multiplier > 1) then
    if (intervalObj.all || intervalObj.every) && decide (intervalObj.multiplier ≤ 1) then
      if intervalObj.relative = "" then
        let half := milliseconds / 2
        let interval : ℚ := (intervalObj.time : ℚ) * 1000
        let steps := (⌊half / interval⌋).toNat
        (List.range steps).flatMap fun k =>
          let offset := interval * (k + 1 : ℚ)
          [⟨offset, makeTimeMessage offset suffixLast false⟩,
            ⟨milliseconds - offset, makeTimeMessage offset suffixFirst false⟩]
      else
        let interval0 : ℚ :=
          match intervalObj.unit with
          | "m" => 60000
          | "h" => 3600000
          | _ => 1000
        let interval :=
          if intervalObj.every then interval0 * (intervalObj.time : ℚ) else interval0
        let count : ℚ :=
          if intervalObj.every then milliseconds / interval else (intervalObj.time : ℚ)
        let modifier := if intervalObj.relative ≠ "first" then 0 else milliseconds
        let forceSufix := intervalObj.relative == "first"
        (List.range (⌈count⌉).toNat).map fun k =>
          let a : ℚ := count - (k : ℚ)
          let offset := a * interval
          ⟨posMinus modifier offset, makeTimeMessage offset suffix forceSufix⟩
    else if decide (intervalObj.multiplier > 1) then
      let unitMs : ℚ :=
        if intervalObj.unit = "s" then 10000
        else if intervalObj.unit = "m" then 60000 else 3600000
      let interval := (intervalObj.time : ℚ) * unitMs
      let modifier := if intervalObj.relative = "last" then 0 else milliseconds
      let steps := (⌊(intervalObj.time : ℚ) / interval⌋).toNat
      (List.range steps).map fun k =>
        let offset := interval * (k + 1 : ℚ)
        ⟨posMinus modifier offset, makeTimeMessage offset suffix false⟩
    else []
  else
    let interval : ℚ := (intervalObj.time : ℚ) * 1000
    let offset := if intervalObj.relative ≠ "first" then interval else milliseconds - interval
    [⟨offset, makeTimeMessage interval suffix false⟩]

/-- The acceptance test of the filterOffsets closure against the offsets
already accepted (found): not a duplicate of an accepted offset, not too
close to any accepted offset unless at or below 30000 ms, strictly below
the timer duration and strictly above zero, in the source's order. -/
def acceptOffset (found : List ℚ) (max : ℚ) (item : SayItem) : Prop :=
  item.offset ∉ found ∧
    (item.offset ≤ 30000 ∨ tooCloseAny item.offset found = false) ∧
    item.offset < max ∧ item.offset > 0

instance (found : List ℚ) (max : ℚ) (item : SayItem) :
    Decidable (acceptOffset found max item) := by
  unfold acceptOffset
  infer_instance

/-- The filterOffsets traversal: found accumulates the accepted offsets,
appended in acceptance order exactly as the source pushes them. -/
def filterAux (max : ℚ) : List SayItem → List ℚ → List SayItem
  | [], _ => []
  | item :: rest, found =>
      if acceptOffset found max item then
        item :: filterAux max rest (found ++ [item.offset])
      else filterAux max rest found

/-- Source filterOffsets: drop duplicates, near-collisions above the
30000 ms exemption line, and offsets outside the open interval
(0, max). -/
def filterOffsets (offsets : List SayItem) (max : ℚ) : List SayItem :=
  filterAux max offsets []

/-- Source sortOffsets: order by descending offset.  The source hands a
three way comparator to Array.sort; after filterOffsets the offsets are
pairwise distinct, so every comparison sort produces this insertion
sort's output. -/
def sortOffsets (input : List SayItem) : List SayItem :=
  input.insertionSort fun a b => b.offset ≤ a.offset

/-- Whitespace tokenizer.  Every match of the interval regex starts at
the string start or after whitespace that the match itself consumes, its
directive body cannot contain whitespace, and the trailing lookahead
requires whitespace or the string end, so the global exec loop of the
source visits exactly the whitespace separated tokens, in order. -/
def splitWsAux : List Char → List Char → List (List Char)
  | [], acc => if acc = [] then [] else [acc.reverse]
  | c :: rest, acc =>
      if c.isWhitespace then
        if acc = [] then splitWsAux rest []
        else acc.reverse :: splitWsAux rest []
      else splitWsAux rest (c :: acc)

/-- The tokens of a notation string. -/
def tokenize (s : String) : List (List Char) := splitWsAux s.data []

/-- The directives of a token list: each token is lowercased (the i
regex flag together with the toLocaleLowerCase calls on every kept
group), and a token the regex does not match contributes nothing. -/
def directives (toks : List (List Char)) : List RawInterval :=
  toks.filterMap fun t => (matchToken (t.map Char.toLower)).map buildInterval

/-- The raw announcement list in generation order under the default
priority "fraction": every fraction directive's announcements in token
order, then every time directive's announcements in token order. -/
def genTokens (toks : List (List Char)) (durationMilli : ℚ) : List SayItem :=
  let dirs := directives toks
  ((dirs.filter fun d => d.isFraction).flatMap fun d =>
      getFractionOffsetAndMessage d durationMilli) ++
    ((dirs.filter fun d => !d.isFraction).flatMap fun d =>
      getTimeOffsetAndMessage d durationMilli)

/-- Source parseRawIntervals: empty (or non-string) input short-circuits
to the empty list; otherwise the generated announcements are filtered
and sorted into the schedule.  The omit parameter only populates the
unused exclude field and is not modelled. -/
def parseRawIntervals (rawIntervals : String) (durationMilli : ℚ) : List SayItem :=
  if rawIntervals = "" then []
  else
    sortOffsets (filterOffsets (genTokens (tokenize rawIntervals) durationMilli) durationMilli)

/-- The observable outcome of one progressTickTock invocation: the
clamped remaining time, the working schedule after the tick, the
messages handed to the speech sink, and whether the end-of-countdown
path ran. -/
structure TickResult where
  remaining : ℚ
  workingIntervals : List SayItem
  spoken : List String
  ended : Bool
deriving Repr, DecidableEq

/-- Source progressTickTock, for one tick at the remaining time it just
recomputed from the endTime anchor (negative values clamp to zero, as in
the source).  When the countdown still runs, at most the single head of
the working schedule is shifted off, and it is spoken only when its
offset lies strictly within 2000 ms of the remaining time; otherwise it
is dropped with no error. -/
def progressTickTock (remainingMilliseconds : ℚ) (workingIntervals : List SayItem) : TickResult :=
  let remaining := if remainingMilliseconds < 0 then 0 else remainingMilliseconds
  let preOffset := getSpeakPreOffset remaining
  if ⌊remaining⌋ ≤ 0 then ⟨remaining, workingIntervals, [], true⟩
  else
    match workingIntervals with
    | sayThis :: rest =>
        if sayThis.offset + preOffset > remaining then
          ⟨remaining, rest,
            if posMinus sayThis.offset remaining < 2000 then [sayThis.message] else [],
            false⟩
        else ⟨remaining, sayThis :: rest, [], false⟩
    | [] => ⟨remaining, [], [], false⟩

/-- C1.  The round trip claimed by the spec fails on the code: the tenths
field is the smallest unit millisecondsToTimeObj produces, so the
sub-tenth remainder of the input (here 50 ms) is discarded and the trip
returns 0, not 50. -/
theorem C1_roundTrip_counterexample :
    timeObjToMilliseconds (millisecondsToTimeObj 50) = 0 ∧ (0 : Nat) ≠ 50 := by
  constructor
  · rfl
  · decide

/-- C1 (amended).  For every duration d in [0, 86400000] the round trip
timeObjToMilliseconds (millisecondsToTimeObj d) returns d rounded down
to a whole tenth of a second, d - d % 100; it is the identity exactly on
the multiples of 100 ms. -/
theorem C1_roundTrip_amended (d : Nat) (hd : d ≤ 86400000) :
    timeObjToMilliseconds (millisecondsToTimeObj d) = d - d % 100 := by
  simp only [timeObjToMilliseconds, millisecondsToTimeObj, getWholePart]
  omega

theorem C1_roundTrip_amended_witness :
    12345650 ≤ 86400000 ∧
      timeObjToMilliseconds (millisecondsToTimeObj 12345650) = 12345650 - 12345650 % 100 :=
  ⟨by decide, C1_roundTrip_amended 12345650 (by decide)⟩

/-- C2.  The claim (and the source's own notes, which cap the timer at
24 hours) require every accepted duration to be clamped at 86,400,000 ms,
but the HH:MM:SS branch of validateTimeDuration never clamps: the
accepted input "24:59:59" yields 89,999,000 ms, above the ceiling. -/
theorem C2_durationCeiling_codeBug :
    validateTimeDuration "24:59:59" = some 89999000 ∧ 86400000 < 89999000 := by
  constructor
  · rfl
  · decide

/-- C9.  getSpeakPreOffset is total and lands in exactly the three
configured bands: 200 ms at or below 10000, 600 ms up to 19999, and
1200 ms for everything larger, including remaining times above the last
threshold entry 86400, where the loop finds no band and the fallback
returns the last band's delay. -/
theorem C9_leadTimeBands (timeRemaining : ℚ) :
    getSpeakPreOffset timeRemaining =
      if timeRemaining ≤ 10000 then 200
      else if timeRemaining ≤ 19999 then 600 else 1200 := by
  unfold getSpeakPreOffset pre
  rcases le_or_lt timeRemaining 10000 with h1 | h1
  · simp [List.find?, h1]
  · rcases le_or_lt timeRemaining 19999 with h2 | h2
    · simp [List.find?, h1.not_le, h2]
    · rcases le_or_lt timeRemaining 86400 with h3 | h3
      · simp [List.find?, h1.not_le, h2.not_le, h3]
      · simp [List.find?, h1.not_le, h2.not_le, h3.not_le]

/-- C3.  For every positive duration T the notation "1/2" compiles to a
schedule with exactly one announcement, at offset T / 2, carrying the
hard-coded half-way message of the denominator-2 branch. -/
theorem C3_halfNotation (T : ℚ) (hT : 0 < T) :
    parseRawIntervals "1/2" T = [⟨T / 2, "Half way"⟩] := by
  have hdir : directives (tokenize "1/2") = [⟨true, false, 0, "", true, 2, 0, ""⟩] := by
    decide
  have hgen : genTokens (tokenize "1/2") T = [⟨T / 2, "Half way"⟩] := by
    simp [genTokens, hdir, getFractionOffsetAndMessage]
  have hacc : acceptOffset [] T ⟨T / 2, "Half way"⟩ := by
    refine ⟨by simp, Or.inr ?_, by linarith, by linarith⟩
    simp [tooCloseAny]
  unfold parseRawIntervals
  rw [if_neg (by decide), hgen]
  unfold filterOffsets filterAux
  rw [if_pos hacc]
  simp [filterAux, sortOffsets, List.insertionSort]

unseal Rat.mul Rat.add Rat.sub Rat.inv in
theorem C3_halfNotation_witness :
    (0 : ℚ) < 60000 ∧ parseRawIntervals "1/2" 60000 = [⟨60000 / 2, "Half way"⟩] :=
  ⟨by decide, C3_halfNotation 60000 (by decide)⟩

/-- C10.  The two half-way paths produce different strings: the
denominator-2 branch of getFractionOffsetAndMessage returns the literal
"Half way" with no trailing period for every duration, while the
closeness collapse rewrites an announcement within 5000 ms of the
midpoint to the suffixes.half default "Half way." with the period; the
two phrases are distinct. -/
theorem C10_halfPhrases :
    (∀ (T : ℚ) (al ev : Bool) (mult : Nat) (rel : String),
        getFractionOffsetAndMessage ⟨al, ev, mult, rel, true, 2, 0, ""⟩ T =
          [⟨T / 2, "Half way"⟩]) ∧
      (∀ (half : ℚ) (item : SayItem),
          tooClose item.offset half = true → collapseHalf half item = ⟨half, "Half way."⟩) ∧
      ("Half way" : String) ≠ "Half way." := by
  refine ⟨?_, ?_, by decide⟩
  · intro T al ev mult rel
    simp [getFractionOffsetAndMessage]
  · intro half item h
    simp [collapseHalf, h, suffixHalf]

unseal Rat.mul Rat.add Rat.sub Rat.inv in
theorem C10_halfPhrases_witness :
    tooClose (2000 : ℚ) 4000 = true ∧
      collapseHalf 4000 ⟨2000, "1 quarter to go."⟩ = ⟨4000, "Half way."⟩ ∧
      getFractionOffsetAndMessage ⟨false, false, 1, "last", true, 2, 0, ""⟩ 60000 =
        [⟨60000 / 2, "Half way"⟩] :=
  ⟨by decide, C10_halfPhrases.2.1 4000 ⟨2000, "1 quarter to go."⟩ (by decide),
    C10_halfPhrases.1 60000 false false 1 "last"⟩

unseal Rat.mul Rat.add Rat.sub Rat.inv in
/-- C6.  The claim's offsets fail once the half-way collapse fires: for
denominator 3, relative last, multiplier 0 and T = 9000 the claimed
offsets are 3000, 6000 and 9000, but every one of them lies within
5000 ms of the midpoint 4500 and the generator emits 4500 three times. -/
theorem C6_fractionEdge_counterexample :
    (getFractionOffsetAndMessage ⟨false, false, 0, "last", true, 3, 0, ""⟩ 9000).map
        SayItem.offset = [4500, 4500, 4500] ∧
      ((List.range 3).map fun a => posMinus 0 ((9000 / (3 : ℚ)) * ((a : ℚ) + 1))) =
        [3000, 6000, 9000] ∧
      ([4500, 4500, 4500] : List ℚ) ≠ [3000, 6000, 9000] :=
  ⟨by decide, by decide, by decide⟩

/-- C6 (amended).  For a fraction directive with denominator 3-10 and
relative first or last, the generator emits exactly count announcements,
where count is the denominator when the multiplier is 0 or at least the
denominator, and the multiplier otherwise; the a-th offset is
|edgeAnchor - (T / denominator) * a| (edgeAnchor is T for first, 0 for
last) unless that value lies strictly within 5000 ms of T / 2, in which
case the half-way collapse replaces the announcement by the canonical
one at T / 2. -/
theorem C6_fractionEdge_amended (T : ℚ) (al ev : Bool) (mult denom : Nat) (rel : String)
    (hrel : rel = "first" ∨ rel = "last") (h3 : 3 ≤ denom) (h10 : denom ≤ 10) :
    (getFractionOffsetAndMessage ⟨al, ev, mult, rel, true, denom, 0, ""⟩ T).length =
        (if mult = 0 ∨ mult ≥ denom then denom else mult) ∧
      (getFractionOffsetAndMessage ⟨al, ev, mult, rel, true, denom, 0, ""⟩ T).map
          SayItem.offset =
        (List.range (if mult = 0 ∨ mult ≥ denom then denom else mult)).map fun (a : Nat) =>
          if tooClose (posMinus (if rel = "first" then T else 0)
                ((T / (denom : ℚ)) * ((a : ℚ) + 1))) (T / 2)
          then T / 2
          else posMinus (if rel = "first" then T else 0) ((T / (denom : ℚ)) * ((a : ℚ) + 1)) := by
  have hne : denom ≠ 2 := by omega
  rcases hrel with h | h <;> subst h <;> constructor
  · simp [getFractionOffsetAndMessage, hne]
  · simp [getFractionOffsetAndMessage, hne, List.map_map]
    intro a _
    simp [collapseHalf, Function.comp, apply_ite SayItem.offset]
  · simp [getFractionOffsetAndMessage, hne]
  · simp [getFractionOffsetAndMessage, hne, List.map_map]
    intro a _
    simp [collapseHalf, Function.comp, apply_ite SayItem.offset]

unseal Rat.mul Rat.add Rat.sub Rat.inv in
theorem C6_fractionEdge_amended_witness :
    (("last" : String) = "first" ∨ ("last" : String) = "last") ∧ 3 ≤ 3 ∧ (3 : Nat) ≤ 10 ∧
      ((getFractionOffsetAndMessage ⟨false, false, 0, "last", true, 3, 0, ""⟩ 70000).length =
          (if 0 = 0 ∨ 0 ≥ 3 then 3 else 0) ∧
        (getFractionOffsetAndMessage ⟨false, false, 0, "last", true, 3, 0, ""⟩ 70000).map
            SayItem.offset =
          (List.range (if 0 = 0 ∨ 0 ≥ 3 then 3 else 0)).map fun (a : Nat) =>
            if tooClose (posMinus (if ("last" : String) = "first" then (70000 : ℚ) else 0)
                  (((70000 : ℚ) / (3 : ℚ)) * ((a : ℚ) + 1))) ((70000 : ℚ) / 2)
            then (70000 : ℚ) / 2
            else posMinus (if ("last" : String) = "first" then (70000 : ℚ) else 0)
              (((70000 : ℚ) / (3 : ℚ)) * ((a : ℚ) + 1))) :=
  ⟨Or.inr rfl, by decide, by decide,
    C6_fractionEdge_amended 70000 false false 0 3 "last" (Or.inr rfl) (by decide) (by decide)⟩

unseal Rat.mul Rat.add Rat.sub Rat.inv in
/-- C5.  The scenario fails on the code: the token "minutes" matches no
alternative of the interval regex (every alternative requires a digit),
so for T = 180000 the notation "minutes allLast10" compiles to the ten
bare-digit announcements alone and no announcement sits at 120000. -/
theorem C5_minutesScenario_counterexample :
    (parseRawIntervals "minutes allLast10" 180000).map SayItem.offset =
        [10000, 9000, 8000, 7000, 6000, 5000, 4000, 3000, 2000, 1000] ∧
      ((parseRawIntervals "minutes allLast10" 180000).all fun item =>
          decide (item.offset ≠ 120000)) = true :=
  ⟨by decide, by decide⟩

unseal Rat.mul Rat.add Rat.sub Rat.inv in
/-- C5 (amended).  For T = 180000 the notation "minutes allLast10"
builds exactly the ten bare-digit announcements at 10000 down to 1000;
the "minutes" token is discarded by the tolerant parser.  The minute
announcements the scenario expected are produced by the notation
"60s allLast10" instead: its schedule opens with "1 minute gone." at
120000 and "1 minute to go." at 60000, followed by the same ten digit
announcements. -/
theorem C5_minutesScenario_amended :
    parseRawIntervals "minutes allLast10" 180000 =
        [⟨10000, "10"⟩, ⟨9000, "9"⟩, ⟨8000, "8"⟩, ⟨7000, "7"⟩, ⟨6000, "6"⟩,
          ⟨5000, "5"⟩, ⟨4000, "4"⟩, ⟨3000, "3"⟩, ⟨2000, "2"⟩, ⟨1000, "1"⟩] ∧
      parseRawIntervals "60s allLast10" 180000 =
        [⟨120000, "1 minute gone."⟩, ⟨60000, "1 minute to go."⟩, ⟨10000, "10"⟩,
          ⟨9000, "9"⟩, ⟨8000, "8"⟩, ⟨7000, "7"⟩, ⟨6000, "6"⟩, ⟨5000, "5"⟩,
          ⟨4000, "4"⟩, ⟨3000, "3"⟩, ⟨2000, "2"⟩, ⟨1000, "1"⟩] :=
  ⟨by decide, by decide⟩

unseal Rat.mul Rat.add Rat.sub Rat.inv in
/-- C7.  The dispatcher pops at most one announcement per tick, not a
while loop's worth: at remaining 5000 with heads at 4950 and 4940, both
satisfy offset + leadTime > remaining (the lead time is 200), yet after
one tick the 4940 head is still queued, so the claimed while-loop
semantics fail on the code. -/
theorem C7_tickDispatch_counterexample :
    progressTickTock 5000 [⟨4950, "a"⟩, ⟨4940, "b"⟩] =
        ⟨5000, [⟨4940, "b"⟩], ["a"], false⟩ ∧
      (4940 : ℚ) + getSpeakPreOffset 5000 > 5000 :=
  ⟨by decide, by decide⟩

/-- C7 (amended).  On a tick with remaining time at least one whole
millisecond, if the head exists and head.offset + leadTime(remaining)
exceeds the remaining time then the head - and only the head, at most
one announcement per tick - is popped; its message is emitted exactly
when |head.offset - remaining| is under 2000 ms and is otherwise
discarded silently, and when the head is not yet due the schedule is
untouched. -/
theorem C7_tickDispatch_amended (r : ℚ) (head : SayItem) (rest : List SayItem)
    (hr : 0 < ⌊r⌋) :
    (head.offset + getSpeakPreOffset r > r →
        progressTickTock r (head :: rest) =
          ⟨r, rest, if posMinus head.offset r < 2000 then [head.message] else [], false⟩) ∧
      (¬ head.offset + getSpeakPreOffset r > r →
        progressTickTock r (head :: rest) = ⟨r, head :: rest, [], false⟩) := by
  have hle : (1 : ℚ) ≤ (⌊r⌋ : ℚ) := by exact_mod_cast hr
  have hfloor := Int.floor_le r
  have hnn : ¬ r < 0 := by linarith
  have hfl : ¬ ⌊r⌋ ≤ 0 := by omega
  constructor <;> intro h <;> simp [progressTickTock, hnn, hfl, h]

unseal Rat.mul Rat.add Rat.sub Rat.inv in
theorem C7_tickDispatch_amended_witness :
    0 < ⌊(5000 : ℚ)⌋ ∧
      progressTickTock 5000 [⟨4900, "ping"⟩] =
        ⟨5000, [],
          if posMinus (SayItem.mk 4900 "ping").offset 5000 < 2000 then ["ping"] else [],
          false⟩ :=
  ⟨by decide, (C7_tickDispatch_amended 5000 ⟨4900, "ping"⟩ [] (by decide)).1 (by decide)⟩

theorem tooCloseAny_mono {q v : ℚ} {found : List ℚ}
    (h : tooCloseAny q (found ++ [v]) = false) : tooCloseAny q found = false := by
  unfold tooCloseAny at h ⊢
  rw [List.any_append] at h
  exact (Bool.or_eq_false_iff.mp h).1

theorem tooCloseAny_last {q v : ℚ} {found : List ℚ}
    (h : tooCloseAny q (found ++ [v]) = false) : tooClose q v = false := by
  unfold tooCloseAny at h
  rw [List.any_append] at h
  have h2 := (Bool.or_eq_false_iff.mp h).2
  simpa using h2

theorem filterAux_mem_spec (l : List SayItem) :
    ∀ (found : List ℚ) (max : ℚ) (x : SayItem), x ∈ filterAux max l found →
      (0 < x.offset ∧ x.offset < max) ∧ x.offset ∉ found ∧
        (30000 < x.offset → tooCloseAny x.offset found = false) ∧
        l.find? (fun z => decide (z.offset = x.offset)) = some x := by
  induction l with
  | nil =>
      intro found max x hx
      simp [filterAux] at hx
  | cons item rest ih =>
      intro found max x hx
      unfold filterAux at hx
      by_cases hacc : acceptOffset found max item
      · rw [if_pos hacc] at hx
        rcases List.mem_cons.mp hx with rfl | hx'
        · obtain ⟨hnotin, hclose, hlt, hpos⟩ := hacc
          refine ⟨⟨hpos, hlt⟩, hnotin, ?_, ?_⟩
          · intro hgt
            rcases hclose with hle | hfalse
            · linarith
            · exact hfalse
          · exact List.find?_cons_of_pos _ (by simp)
        · obtain ⟨hrange, hnotin', hclose', hfind⟩ := ih (found ++ [item.offset]) max x hx'
          have hne : x.offset ≠ item.offset := fun he => hnotin' (by simp [he])
          refine ⟨hrange, fun hmem => hnotin' (by simp [hmem]), ?_, ?_⟩
          · intro hgt
            exact tooCloseAny_mono (hclose' hgt)
          · rw [List.find?_cons_of_neg _ (by simp [hne.symm])]
            exact hfind
      · rw [if_neg hacc] at hx
        obtain ⟨hrange, hnotin, hclose, hfind⟩ := ih found max x hx
        have hne : item.offset ≠ x.offset := by
          intro he
          apply hacc
          refine ⟨by rw [he]; exact hnotin, ?_, by rw [he]; exact hrange.2,
            by rw [he]; exact hrange.1⟩
          rcases le_or_lt x.offset 30000 with h30 | h30
          · exact Or.inl (by rw [he]; exact h30)
          · exact Or.inr (by rw [he]; exact hclose h30)
        refine ⟨hrange, hnotin, hclose, ?_⟩
        rw [List.find?_cons_of_neg _ (by simp [hne])]
        exact hfind

theorem filterAux_pairwise (l : List SayItem) :
    ∀ (found : List ℚ) (max : ℚ),
      (filterAux max l found).Pairwise fun a b =>
        a.offset ≠ b.offset ∧
          (30000 < a.offset → 30000 < b.offset → 5000 ≤ |a.offset - b.offset|) := by
  induction l with
  | nil =>
      intro found max
      simp [filterAux]
  | cons item rest ih =>
      intro found max
      unfold filterAux
      by_cases hacc : acceptOffset found max item
      · rw [if_pos hacc]
        refine List.Pairwise.cons ?_ (ih _ max)
        intro y hy
        obtain ⟨_, hnotin, hclose, _⟩ :=
          filterAux_mem_spec rest (found ++ [item.offset]) max y hy
        have hne : item.offset ≠ y.offset := fun he => hnotin (by simp [he.symm])
        refine ⟨hne, ?_⟩
        intro hi hyg
        have hcl : tooClose y.offset item.offset = false := tooCloseAny_last (hclose hyg)
        simp only [tooClose, Bool.and_eq_false_iff, decide_eq_false_iff_not, not_lt] at hcl
        rcases hcl with hle | hge
        · exact le_abs.mpr (Or.inl (by linarith))
        · exact le_abs.mpr (Or.inr (by linarith))
      · rw [if_neg hacc]
        exact ih found max

/-- C4.  Invariants of every built schedule (sortOffsets after
filterOffsets, for any raw announcement list and any duration): every
accepted offset lies strictly between 0 and the duration; any two
distinct schedule entries have distinct offsets and, when both exceed
30000 ms, differ by at least 5000 ms; and each entry is the first
input announcement bearing its offset value, so no offset occurs
twice. -/
theorem C4_scheduleInvariants (offsets : List SayItem) (max : ℚ) :
    (∀ x ∈ sortOffsets (filterOffsets offsets max), 0 < x.offset ∧ x.offset < max) ∧
      (sortOffsets (filterOffsets offsets max)).Pairwise (fun a b =>
        a.offset ≠ b.offset ∧
          (30000 < a.offset → 30000 < b.offset → 5000 ≤ |a.offset - b.offset|)) ∧
      (∀ x ∈ sortOffsets (filterOffsets offsets max),
        offsets.find? (fun z => decide (z.offset = x.offset)) = some x) := by
  have hperm : (sortOffsets (filterOffsets offsets max)).Perm (filterOffsets offsets max) :=
    List.perm_insertionSort _ _
  refine ⟨?_, ?_, ?_⟩
  · intro x hx
    exact (filterAux_mem_spec offsets [] max x (hperm.mem_iff.mp hx)).1
  · exact (hperm.pairwise_iff fun hab =>
      ⟨hab.1.symm, fun h1 h2 => by rw [abs_sub_comm]; exact hab.2 h2 h1⟩).mpr
      (filterAux_pairwise offsets [] max)
  · intro x hx
    exact (filterAux_mem_spec offsets [] max x (hperm.mem_iff.mp hx)).2.2.2

unseal Rat.mul Rat.add Rat.sub Rat.inv in
theorem C4_scheduleInvariants_witness :
    0 < (SayItem.mk 40000 "a").offset ∧ (SayItem.mk 40000 "a").offset < 60000 :=
  (C4_scheduleInvariants [⟨40000, "a"⟩, ⟨42000, "b"⟩, ⟨40000, "c"⟩] 60000).1
    ⟨40000, "a"⟩ (by decide)

/-- C8.  The notation parser is total by construction and tolerant: the
empty string yields the empty schedule, a whitespace separated token the
grammar does not match contributes no announcements while the remaining
tokens still parse (shown at the token level and on a concrete notation
with a malformed word), and no input raises an error. -/
theorem C8_parserTolerance :
    (∀ T : ℚ, parseRawIntervals "" T = []) ∧
      (∀ (T : ℚ) (ts1 ts2 : List (List Char)) (bad : List Char),
          matchToken (bad.map Char.toLower) = none →
            genTokens (ts1 ++ bad :: ts2) T = genTokens (ts1 ++ ts2) T) ∧
      (∀ T : ℚ, parseRawIntervals "oops 30s" T = parseRawIntervals "30s" T) := by
  refine ⟨fun T => rfl, ?_, ?_⟩
  · intro T ts1 ts2 bad hbad
    have hdir : directives (ts1 ++ bad :: ts2) = directives (ts1 ++ ts2) := by
      simp [directives, List.filterMap_append, List.filterMap_cons, hbad]
    simp only [genTokens, hdir]
  · intro T
    have hdir : directives (tokenize "oops 30s") = directives (tokenize "30s") := by decide
    unfold parseRawIntervals
    rw [if_neg (by decide), if_neg (by decide)]
    simp only [genTokens, hdir]

theorem C8_parserTolerance_witness :
    matchToken ("oops".data.map Char.toLower) = none ∧
      genTokens ([] ++ "oops".data :: [['3', '0', 's']]) 60000 =
        genTokens ([] ++ [['3', '0', 's']]) 60000 :=
  ⟨by decide,
    C8_parserTolerance.2.1 60000 [] [['3', '0', 's']] "oops".data (by decide)⟩
